import Mathlib

/-!
Shallow embedding of `src/mongodb_evaluation_system.py`, the rule-based
evaluator for MongoDB analysis results.

Modelling conventions:
* Python int/float values are modelled as rationals (`ℚ`); the non-finite
  floats get their own constructors (`vnan`, `vinf`), since the source
  checks `np.isnan` / `np.isinf` explicitly and ordinary comparisons with
  them are all false (nan) or decided by the sign (±inf).
* Python dicts are association lists; lookup takes the first binding.
* Python strings are Lean `String`s; `str.lower()` is a character-wise
  ASCII lowering, which agrees with Python on every string the source's
  fixed keyword lists can match.
-/

namespace MongoEval

/-- Universe of Python values appearing in `calculation_results`,
`execution_logs` entries and ground-truth dictionaries: `None`, a finite
number (int or float — every check in the source treats the two alike),
`nan`, `±inf`, `str`, `list`, `dict`. -/
inductive Value where
  | vnull : Value
  | vnum (q : ℚ) : Value
  | vnan : Value
  | vinf (pos : Bool) : Value
  | vstr (s : String) : Value
  | vlist (items : List Value) : Value
  | vdict (items : List (String × Value)) : Value

/-- `d.get(key)` / `d[key]` on a Python dict: the first binding of the key. -/
def dGet (k : String) : List (String × Value) → Option Value
  | [] => none
  | (k2, v) :: rest => if k = k2 then some v else dGet k rest

theorem sizeOf_of_dGet {k : String} {w : Value} :
    ∀ {b : List (String × Value)}, dGet k b = some w → sizeOf w ≤ sizeOf b := by
  intro b
  induction b with
  | nil => intro h; simp [dGet] at h
  | cons p rest ih =>
      intro h
      obtain ⟨k2, v⟩ := p
      by_cases hk : k = k2
      · simp [dGet, hk] at h
        subst h
        simp
        omega
      · simp [dGet, hk] at h
        have := ih h
        simp
        omega

mutual

/-- Python `==` on modelled values: numbers compare by value (`10 == 10.0`),
`nan` is unequal to everything including itself, strings and `None` compare
directly, lists elementwise, dicts as unordered key→value mappings. -/
def pyEq : Value → Value → Bool
  | .vnull, .vnull => true
  | .vnum a, .vnum b => a == b
  | .vinf a, .vinf b => a == b
  | .vstr s, .vstr t => s == t
  | .vlist xs, .vlist ys => pyEqList xs ys
  | .vdict xs, .vdict ys =>
      Nat.beq xs.length ys.length && pyDictSub xs ys && pyDictSub ys xs
  | _, _ => false
termination_by a b => sizeOf a + sizeOf b
decreasing_by
  all_goals simp_wf
  all_goals omega

def pyEqList : List Value → List Value → Bool
  | [], [] => true
  | x :: xs, y :: ys => pyEq x y && pyEqList xs ys
  | _, _ => false
termination_by a b => sizeOf a + sizeOf b
decreasing_by
  all_goals simp_wf
  all_goals omega

/-- Every binding of the first dict is matched (via lookup) in the second. -/
def pyDictSub : List (String × Value) → List (String × Value) → Bool
  | [], _ => true
  | (k, v) :: rest, b =>
      (match h : dGet k b with
       | some w => pyEq v w
       | none => false) && pyDictSub rest b
termination_by a b => sizeOf a + sizeOf b
decreasing_by
  all_goals simp_wf
  all_goals try omega
  all_goals have hw := sizeOf_of_dGet h
  all_goals omega

end

/-- Python's `\s` whitespace class (the ASCII characters; `re` also accepts
them inside `str` patterns). -/
def isSpaceChar (c : Char) : Bool :=
  c = ' ' || c = '\t' || c = '\n' || c = '\r' || c = '\x0b' || c = '\x0c'

/-- A regex `\w` word character: letters, digits, underscore. -/
def isWordChar (c : Char) : Bool := c.isAlphanum || c = '_'

/-- A character of the regex class `[!=<>]`. -/
def isOpChar (c : Char) : Bool := c = '!' || c = '=' || c = '<' || c = '>'

/-- `str.lower()`: character-wise ASCII case folding. -/
def pyLower (s : String) : String := String.mk (s.data.map Char.toLower)

/-- `str.strip()`: leading and trailing whitespace removed. -/
def pyStrip (s : String) : String :=
  String.mk (((s.data.dropWhile isSpaceChar).reverse.dropWhile isSpaceChar).reverse)

/-- Case-insensitive character comparison, as `re.IGNORECASE` applies it. -/
def ciEq (a b : Char) : Bool := a.toLower = b.toLower

/-- The first list is a case-insensitive prefix of the second. -/
def ciPrefixAt : List Char → List Char → Bool
  | [], _ => true
  | _ :: _, [] => false
  | a :: as, b :: bs => ciEq a b && ciPrefixAt as bs

/-- The first list is a (case-sensitive) prefix of the second. -/
def litPrefixAt : List Char → List Char → Bool
  | [], _ => true
  | _ :: _, [] => false
  | a :: as, b :: bs => (a = b) && litPrefixAt as bs

/-- `re.search`-style scan: does `f` accept some suffix of the list? -/
def searchAt (f : List Char → Bool) : List Char → Bool
  | [] => f []
  | c :: cs => f (c :: cs) || searchAt f cs

/-- Python `needle in hay` (case-sensitive substring test). -/
def strContains (hay needle : String) : Bool :=
  searchAt (fun l => litPrefixAt needle.data l) hay.data

/-- Tail of regex 1 after the group `(\w+)` has been fixed to `w`:
`\s*[!=<>]+\s*\1`, the backreference compared case-insensitively
(`re.IGNORECASE`).  Because the space, operator and word character classes
are pairwise disjoint, every `\s*` / `[!=<>]+` span in a successful match is
forced to be the maximal run, so the greedy scan below is equivalent to the
backtracking search. -/
def selfCmpTail (w rest : List Char) : Bool :=
  let r1 := rest.dropWhile isSpaceChar
  !(r1.takeWhile isOpChar).isEmpty &&
    ciPrefixAt w ((r1.dropWhile isOpChar).dropWhile isSpaceChar)

/-- Enumerates the candidate nonempty word-character prefixes for the group
`(\w+)` of regex 1 (`wRev` is the group read so far, reversed), matching the
backtracking over the greedy `\w+`. -/
def selfCmpGo (wRev : List Char) : List Char → Bool
  | [] => false
  | c :: cs =>
      isWordChar c &&
        (selfCmpTail ((c :: wRev).reverse) cs || selfCmpGo (c :: wRev) cs)

/-- Regex 1 of `_has_semantic_error`, `(\w+)\s*[!=<>]+\s*\1`, anchored at the
current position. -/
def p1At (l : List Char) : Bool := selfCmpGo [] l

/-- Helper for `.*`-separated literal pieces: the pieces occur
case-insensitively, in order, inside the list.  The caller truncates the
list at the first newline, since `.` does not match `\n`. -/
def seqCI : List (List Char) → List Char → Bool
  | [], _ => true
  | p :: ps, l =>
      searchAt (fun t => ciPrefixAt p t && seqCI ps (t.drop p.length)) l

/-- Regex 2, `count.*==.*0.*AND.*exists`, anchored at the current position;
the whole match sits on one line because every literal piece is
newline-free. -/
def p2At (l : List Char) : Bool :=
  ciPrefixAt (String.data ("count")) l &&
    seqCI [String.data ("=="), String.data ("0"), String.data ("AND"),
           String.data ("exists")]
      ((l.drop 5).takeWhile (fun c => !(c = '\n')))

/-- Regex 3, `>\s*9{8,}`, anchored at the current position: a literal `>`,
whitespace, then at least eight consecutive `9` characters.  The maximal
whitespace run is forced since `9` is not whitespace. -/
def p3At : List Char → Bool
  | '>' :: rest =>
      decide (8 ≤ ((rest.dropWhile isSpaceChar).takeWhile (fun c => c = '9')).length)
  | _ => false

/-- After a `\{` of regex 4: `\s*\}` (the whitespace here may span lines,
`\s` matches newlines). -/
def braceCloseAt (l : List Char) : Bool :=
  match l.dropWhile isSpaceChar with
  | c :: _ => c = '\x7d'
  | [] => false

/-- The `.*\{\s*\}` tail of regex 4: scan forward without crossing a
newline (`.` does not match `\n`) for a `{` that `\s*\}` closes. -/
def p4Scan : List Char → Bool
  | [] => false
  | c :: cs =>
      !(c = '\n') && (((c = '\x7b') && braceCloseAt cs) || p4Scan cs)

/-- Regex 4, `\$match.*\{\s*\}`, anchored at the current position. -/
def p4At (l : List Char) : Bool :=
  ciPrefixAt (String.data ("$match")) l && p4Scan (l.drop 6)

/-- Regex 5, `\$group.*_id.*_id`, anchored at the current position; both
`.*` spans stay on the line of `$group`. -/
def p5At (l : List Char) : Bool :=
  ciPrefixAt (String.data ("$group")) l &&
    seqCI [String.data ("_id"), String.data ("_id")]
      ((l.drop 6).takeWhile (fun c => !(c = '\n')))

/-- `UniversalAnalysisResult` (the `timestamp` field is only defaulted and
reported, never read by any rate computation, and is omitted). -/
structure UniversalAnalysisResult where
  analysis_query : String
  mongodb_queries : List String
  calculation_results : List (String × Value)
  execution_logs : List (List (String × Value))

/-- `value < 0` on a Python number: false for `nan`, true for `-inf`. -/
def numLtZero : Value → Bool
  | .vnum q => decide (q < 0)
  | .vinf pos => !pos
  | _ => false

/-- `c < value` on a Python number: false for `nan`, true for `+inf`. -/
def numGtConst (c : ℚ) : Value → Bool
  | .vnum q => decide (c < q)
  | .vinf pos => pos
  | _ => false

/-- The keyword list of `_check_result_query_mismatch`'s ratio branch. -/
def rateQueryWords : List String := ["비율", "율", "percent", "rate"]

/-- `_check_result_query_mismatch`: a `count` query with some negative
numeric result, or a ratio-keyword analysis question with some numeric
result above 100. -/
def check_result_query_mismatch (query : String)
    (r : UniversalAnalysisResult) : Bool :=
  (strContains (pyLower query) ("count") &&
     r.calculation_results.any (fun kv => numLtZero kv.2)) ||
  (rateQueryWords.any (fun w => strContains (pyLower r.analysis_query) w) &&
     r.calculation_results.any (fun kv => numGtConst 100 kv.2))

/-- `_has_semantic_error`: one of the five regex patterns fires somewhere in
the query (`re.search`, `re.IGNORECASE`), or the result/query cross-check
fires. -/
def has_semantic_error (query : String) (r : UniversalAnalysisResult) : Bool :=
  searchAt p1At query.data || searchAt p2At query.data ||
  searchAt p3At query.data || searchAt p4At query.data ||
  searchAt p5At query.data || check_result_query_mismatch query r

/-- `_calculate_semantic_error_rate`. -/
def calculate_semantic_error_rate (r : UniversalAnalysisResult) : ℚ :=
  if r.mongodb_queries.isEmpty then 0
  else
    let total := r.mongodb_queries.length
    let errs := r.mongodb_queries.countP (fun q => has_semantic_error q r)
    if 0 < total then (errs : ℚ) / (total : ℚ) else 0

mutual

/-- Python `repr` of a value, as `str(dict)` renders the entries.  The
evaluator consumes the rendering only through one check — whether the
substring `"count"` occurs in `str(calculation_results)` — and `"count"`
is a run of letters: numeric values render from digits, signs and
punctuation only, and CPython's string escaping neither removes letters
from a letter run nor inserts letters into one, so for that check the
rendering below is interchangeable with CPython's. -/
def pyRepr : Value → String
  | .vnull => "None"
  | .vnum q =>
      if q.den = 1 then toString q.num
      else toString q.num ++ "/" ++ toString q.den
  | .vnan => "nan"
  | .vinf pos => if pos then "inf" else "-inf"
  | .vstr s => "'" ++ s ++ "'"
  | .vlist xs => "[" ++ pyReprList xs ++ "]"
  | .vdict xs => "\x7b" ++ pyReprDict xs ++ "\x7d"

def pyReprList : List Value → String
  | [] => ""
  | [x] => pyRepr x
  | x :: xs => pyRepr x ++ ", " ++ pyReprList xs

def pyReprDict : List (String × Value) → String
  | [] => ""
  | [(k, v)] => "'" ++ k ++ "': " ++ pyRepr v
  | (k, v) :: xs => "'" ++ k ++ "': " ++ pyRepr v ++ ", " ++ pyReprDict xs

end

/-- `str(analysis_result.calculation_results)`. -/
def reprResults (rs : List (String × Value)) : String :=
  "\x7b" ++ pyReprDict rs ++ "\x7d"

/-- One execution-log entry counts as successful:
`log.get("status") == "success" or log.get("error") is None`; a missing
`"error"` key and an `"error"` key holding `None` are alike under
`is None`. -/
def log_entry_success (e : List (String × Value)) : Bool :=
  (match dGet ("status") e with
   | some v => pyEq v (Value.vstr ("success"))
   | none => false) ||
  (match dGet ("error") e with
   | none => true
   | some .vnull => true
   | some _ => false)

/-- `_calculate_execution_success_rate`. -/
def calculate_execution_success_rate (r : UniversalAnalysisResult) : ℚ :=
  if r.execution_logs.isEmpty then 1
  else
    let total := r.execution_logs.length
    let good := r.execution_logs.countP log_entry_success
    if 0 < total then (good : ℚ) / (total : ℚ) else 1

/-- The error-marker substrings of `_is_empty_or_invalid_result`. -/
def errorWords : List String := ["error", "exception", "failed", "null"]

/-- `_is_empty_or_invalid_result`: `None`, an empty list or dict, a blank
string, `nan`/`±inf`, or a string containing an error-marker word
(checked on `value.lower()`). -/
def is_empty_or_invalid_result : Value → Bool
  | .vnull => true
  | .vlist xs => xs.isEmpty
  | .vdict xs => xs.isEmpty
  | .vstr s =>
      (pyStrip s == "") || errorWords.any (fun w => strContains (pyLower s) w)
  | .vnan => true
  | .vinf _ => true
  | .vnum _ => false

/-- `_calculate_empty_result_rate`. -/
def calculate_empty_result_rate (r : UniversalAnalysisResult) : ℚ :=
  if r.calculation_results.isEmpty then 1
  else
    let total := r.calculation_results.length
    let bad := r.calculation_results.countP
      (fun kv => is_empty_or_invalid_result kv.2)
    if 0 < total then (bad : ℚ) / (total : ℚ) else 1

/-- The Python runtime type of a value, as the `type(calculated) !=
type(expected)` gate of `_values_match` distinguishes them.  The three
numeric constructors share one tag: the gate explicitly lets any pair of
numbers through, and int versus float makes no further difference in the
source. -/
def vKind : Value → Nat
  | .vnull => 0
  | .vnum _ => 1
  | .vnan => 1
  | .vinf _ => 1
  | .vstr _ => 2
  | .vlist _ => 3
  | .vdict _ => 4

/-- `_values_match` with its default `tolerance=0.01`.  A `nan` or `±inf`
operand passes the numeric gate in the source but then fails
`abs(calculated - expected) <= tolerance` (the difference is `nan` or
`±inf`), so only finite pairs can match. -/
def values_match (calculated expected : Value) : Bool :=
  if vKind calculated ≠ vKind expected then false
  else
    match calculated, expected with
    | .vnum a, .vnum b => decide (|a - b| ≤ 1/100)
    | .vnan, _ => false
    | _, .vnan => false
    | .vinf _, _ => false
    | _, .vinf _ => false
    | .vstr s, .vstr t => pyLower (pyStrip s) == pyLower (pyStrip t)
    | .vlist xs, .vlist ys => pyEqList xs ys
    | .vdict xs, .vdict ys => pyEq (Value.vdict xs) (Value.vdict ys)
    | .vnull, .vnull => true
    | _, _ => false

/-- The key-keyword list of `_calculate_consistency_score`'s ratio check. -/
def keyRateWords : List String := ["rate", "ratio", "비율", "율"]

/-- `_calculate_consistency_score`: starts at 1.0; per value, 0.2 off when
it is a negative number and `str(calculation_results)` contains `"count"`,
and 0.1 off when it is a number above ten million (the source iterates its
first loop over the numeric values only, and both tests are false on
non-numbers, so summing over all values is the same); per entry whose key
contains a rate keyword, 0.3 off when its value is a number outside
[0, 100]; finally floored at 0 by `max`. -/
def calculate_consistency_score (r : UniversalAnalysisResult) : ℚ :=
  let hasCount := strContains (reprResults r.calculation_results) ("count")
  let negBig :=
    (r.calculation_results.map (fun kv =>
      (if numLtZero kv.2 && hasCount then (2 : ℚ)/10 else 0) +
      (if numGtConst 10000000 kv.2 then (1 : ℚ)/10 else 0))).sum
  let ratio :=
    (r.calculation_results.map (fun kv =>
      if keyRateWords.any (fun w => strContains (pyLower kv.1) w) &&
           (numLtZero kv.2 || numGtConst 100 kv.2)
      then (3 : ℚ)/10 else 0)).sum
  max 0 (1 - negBig - ratio)

/-- `_calculate_accuracy_rate`: with ground truth, the loop counts the
results keys that appear in the truth dict and, of those, the matching
values; without ground truth it falls back to the consistency score. -/
def calculate_accuracy_rate (r : UniversalAnalysisResult)
    (ground_truth : Option (List (String × Value))) : ℚ :=
  match ground_truth with
  | none => calculate_consistency_score r
  | some g =>
      let compared := r.calculation_results.countP
        (fun kv => (dGet kv.1 g).isSome)
      let correct := r.calculation_results.countP (fun kv =>
        match dGet kv.1 g with
        | some e => values_match kv.2 e
        | none => false)
      if 0 < compared then (correct : ℚ) / (compared : ℚ) else 1

/-- The four threshold bounds, as a record (claims about a fully supplied
configuration quantify over this; the raw dict form of the constructor is
`init_thresholds` below). -/
structure Thresholds where
  semantic_error : ℚ
  execution_success : ℚ
  empty_result : ℚ
  accuracy : ℚ

/-- The constructor's default thresholds. -/
def defaultThresholds : Thresholds := ⟨1/10, 8/10, 2/10, 9/10⟩

/-- `EvaluationMetrics`. -/
structure EvaluationMetrics where
  semantic_error_rate : ℚ
  execution_success_rate : ℚ
  empty_result_rate : ℚ
  accuracy_rate : ℚ
  overall_pass : Bool

/-- `_determine_overall_pass`: all four bound comparisons, conjoined. -/
def determine_overall_pass (t : Thresholds)
    (ser esr err ar : ℚ) : Bool :=
  decide (ser ≤ t.semantic_error) && decide (t.execution_success ≤ esr) &&
    decide (err ≤ t.empty_result) && decide (t.accuracy ≤ ar)

/-- `UniversalMongoDBEvaluator.evaluate`. -/
def evaluate (t : Thresholds) (r : UniversalAnalysisResult)
    (ground_truth : Option (List (String × Value))) : EvaluationMetrics :=
  let ser := calculate_semantic_error_rate r
  let esr := calculate_execution_success_rate r
  let err := calculate_empty_result_rate r
  let ar := calculate_accuracy_rate r ground_truth
  ⟨ser, esr, err, ar, determine_overall_pass t ser esr err ar⟩

/-- The error kinds observable at the evaluator's boundary.  `keyError` is
Python's `KeyError` from a dict subscript.  `invalidInputError` is the
error kind the spec's §7 names; no code in the repository defines or
raises it — the constructor exists only so that its absence from the
behaviour is expressible. -/
inductive PyError where
  | keyError (key : String)
  | invalidInputError (msg : String)
deriving DecidableEq

/-- The default thresholds in the constructor's dict form. -/
def defaultThresholdsDict : List (String × ℚ) :=
  [("semantic_error", 1/10), ("execution_success", 8/10),
   ("empty_result", 2/10), ("accuracy", 9/10)]

/-- Lookup in a `Dict[str, float]`. -/
def qGet (k : String) : List (String × ℚ) → Option ℚ
  | [] => none
  | (k2, v) :: rest => if k = k2 then some v else qGet k rest

/-- `__init__`: `self.thresholds = thresholds or {…}` — `None` and the
empty dict are both falsy, so both silently select the defaults; any
non-empty dict is stored as given, unvalidated. -/
def init_thresholds (thresholds : Option (List (String × ℚ))) :
    List (String × ℚ) :=
  match thresholds with
  | none => defaultThresholdsDict
  | some d => if d.isEmpty then defaultThresholdsDict else d

/-- A `self.thresholds[key]` subscript: `KeyError` when the key is absent. -/
def thresholdItem (td : List (String × ℚ)) (k : String) : Except PyError ℚ :=
  match qGet k td with
  | some v => Except.ok v
  | none => Except.error (PyError.keyError k)

/-- `_determine_overall_pass` over the stored dict: the four subscripts are
evaluated in source order, and the first missing key raises `KeyError`. -/
def determine_overall_pass_dict (td : List (String × ℚ))
    (ser esr err ar : ℚ) : Except PyError Bool := do
  let tse ← thresholdItem td ("semantic_error")
  let tes ← thresholdItem td ("execution_success")
  let ter ← thresholdItem td ("empty_result")
  let tac ← thresholdItem td ("accuracy")
  pure (decide (ser ≤ tse) && decide (tes ≤ esr) &&
    decide (err ≤ ter) && decide (tac ≤ ar))

/-- `evaluate` as reached through the constructor's dict-typed thresholds:
the four rate computations cannot raise; only the verdict's threshold
subscripts can. -/
def evaluate_dict (thresholds : Option (List (String × ℚ)))
    (r : UniversalAnalysisResult)
    (ground_truth : Option (List (String × Value))) :
    Except PyError EvaluationMetrics := do
  let td := init_thresholds thresholds
  let ser := calculate_semantic_error_rate r
  let esr := calculate_execution_success_rate r
  let err := calculate_empty_result_rate r
  let ar := calculate_accuracy_rate r ground_truth
  let pass ← determine_overall_pass_dict td ser esr err ar
  pure ⟨ser, esr, err, ar, pass⟩

/-! ### Lemmas about the scanning and counting combinators -/

theorem searchAt_here {f : List Char → Bool} {l : List Char} (h : f l = true) :
    searchAt f l = true := by
  cases l with
  | nil => simpa [searchAt] using h
  | cons c cs => simp [searchAt, h]

theorem searchAt_suffix {f : List Char → Bool} (a : List Char) {l : List Char}
    (h : f l = true) : searchAt f (a ++ l) = true := by
  induction a with
  | nil => simpa using searchAt_here h
  | cons c cs ih => simp [searchAt, ih]

theorem takeWhile_append_all {p : Char → Bool} {a : List Char} (b : List Char)
    (h : ∀ c ∈ a, p c = true) :
    (a ++ b).takeWhile p = a ++ b.takeWhile p := by
  induction a with
  | nil => simp
  | cons c cs ih =>
      simp only [List.cons_append, List.takeWhile_cons,
        h c (List.mem_cons_self c cs)]
      exact congrArg (c :: ·) (ih (fun x hx => h x (List.mem_cons_of_mem c hx)))

theorem dropWhile_append_all {p : Char → Bool} {a : List Char} (b : List Char)
    (h : ∀ c ∈ a, p c = true) :
    (a ++ b).dropWhile p = b.dropWhile p := by
  induction a with
  | nil => simp
  | cons c cs ih =>
      simp only [List.cons_append, List.dropWhile_cons,
        h c (List.mem_cons_self c cs), if_pos]
      exact ih (fun x hx => h x (List.mem_cons_of_mem c hx))

theorem le_length_takeWhile_replicate (n : ℕ) (b : List Char) :
    n ≤ ((List.replicate n '9' ++ b).takeWhile (fun c => c = '9')).length := by
  induction n with
  | zero => simp
  | succ m ih =>
      simp only [List.replicate_succ, List.cons_append, List.takeWhile_cons]
      simpa using Nat.succ_le_succ ih

theorem ciPrefixAt_self_append (p r : List Char) : ciPrefixAt p (p ++ r) = true := by
  induction p with
  | nil => rfl
  | cons c cs ih => simp [ciPrefixAt, ciEq, ih]

theorem seqCI_cons_of {ps : List (List Char)} {r : List Char} (p a : List Char)
    (h : seqCI ps r = true) : seqCI (p :: ps) (a ++ (p ++ r)) = true := by
  apply searchAt_suffix a
  simp [ciPrefixAt_self_append, List.drop_left, h]

theorem count_div_bounds {k n : ℕ} (hk : k ≤ n) (hn : 0 < n) :
    0 ≤ (k : ℚ) / n ∧ (k : ℚ) / n ≤ 1 := by
  constructor
  · positivity
  · rw [div_le_one (by exact_mod_cast hn)]
    exact_mod_cast hk

theorem ite_nonneg_q {c : Prop} [Decidable c] {x : ℚ} (hx : 0 ≤ x) :
    0 ≤ if c then x else 0 := by
  split
  · exact hx
  · exact le_rfl

theorem sum_map_nonneg {α : Type} (l : List α) (f : α → ℚ)
    (h : ∀ x ∈ l, 0 ≤ f x) : 0 ≤ (l.map f).sum := by
  apply List.sum_nonneg
  intro x hx
  obtain ⟨a, ha, rfl⟩ := List.mem_map.mp hx
  exact h a ha

/-! ### Bounds of the four rates -/

theorem semantic_error_rate_bounds (r : UniversalAnalysisResult) :
    0 ≤ calculate_semantic_error_rate r ∧ calculate_semantic_error_rate r ≤ 1 := by
  unfold calculate_semantic_error_rate
  split
  · norm_num
  · dsimp only
    split
    · exact count_div_bounds (List.countP_le_length _) (by assumption)
    · norm_num

theorem execution_success_rate_bounds (r : UniversalAnalysisResult) :
    0 ≤ calculate_execution_success_rate r ∧
      calculate_execution_success_rate r ≤ 1 := by
  unfold calculate_execution_success_rate
  split
  · norm_num
  · dsimp only
    split
    · exact count_div_bounds (List.countP_le_length _) (by assumption)
    · norm_num

theorem empty_result_rate_bounds (r : UniversalAnalysisResult) :
    0 ≤ calculate_empty_result_rate r ∧ calculate_empty_result_rate r ≤ 1 := by
  unfold calculate_empty_result_rate
  split
  · norm_num
  · dsimp only
    split
    · exact count_div_bounds (List.countP_le_length _) (by assumption)
    · norm_num

theorem consistency_score_bounds (r : UniversalAnalysisResult) :
    0 ≤ calculate_consistency_score r ∧ calculate_consistency_score r ≤ 1 := by
  simp only [calculate_consistency_score]
  refine ⟨le_max_left _ _, max_le (by norm_num) ?_⟩
  have hA := sum_map_nonneg r.calculation_results
    (fun kv =>
      (if numLtZero kv.2 && strContains (reprResults r.calculation_results) ("count")
       then (2 : ℚ)/10 else 0) +
      (if numGtConst 10000000 kv.2 then (1 : ℚ)/10 else 0))
    (fun kv _ => add_nonneg (ite_nonneg_q (by norm_num)) (ite_nonneg_q (by norm_num)))
  have hB := sum_map_nonneg r.calculation_results
    (fun kv =>
      if keyRateWords.any (fun w => strContains (pyLower kv.1) w) &&
           (numLtZero kv.2 || numGtConst 100 kv.2)
      then (3 : ℚ)/10 else 0)
    (fun kv _ => ite_nonneg_q (by norm_num))
  linarith

theorem accuracy_rate_bounds (r : UniversalAnalysisResult)
    (gt : Option (List (String × Value))) :
    0 ≤ calculate_accuracy_rate r gt ∧ calculate_accuracy_rate r gt ≤ 1 := by
  cases gt with
  | none => exact consistency_score_bounds r
  | some g =>
      simp only [calculate_accuracy_rate]
      split
      · refine count_div_bounds (List.countP_mono_left ?_) (by assumption)
        intro kv _ h
        cases hd : dGet kv.1 g with
        | none => rw [hd] at h; exact absurd h (by simp)
        | some e => simp [hd]
      · norm_num

/-! ### Claim theorems -/

/-- C2: `evaluate` returns `overall_pass = true` exactly when all four
threshold comparisons hold — semantic error rate at most its bound,
execution success rate at least its bound, empty result rate at most its
bound and accuracy rate at least its bound — so for every record, ground
truth and threshold configuration, one failing comparison alone makes
`overall_pass` false. -/
theorem overall_pass_is_conjunctive_gate (t : Thresholds)
    (r : UniversalAnalysisResult) (gt : Option (List (String × Value))) :
    (evaluate t r gt).overall_pass = true ↔
      ((evaluate t r gt).semantic_error_rate ≤ t.semantic_error ∧
       t.execution_success ≤ (evaluate t r gt).execution_success_rate ∧
       (evaluate t r gt).empty_result_rate ≤ t.empty_result ∧
       t.accuracy ≤ (evaluate t r gt).accuracy_rate) := by
  simp [evaluate, determine_overall_pass, and_assoc]

/-- C3: for every record, ground truth and threshold configuration, each of
the four rates `evaluate` returns lies in the closed interval [0, 1]; in
particular the no-reference consistency score is floored at 0 and cannot go
negative. -/
theorem rates_lie_in_unit_interval (t : Thresholds)
    (r : UniversalAnalysisResult) (gt : Option (List (String × Value))) :
    (0 ≤ (evaluate t r gt).semantic_error_rate ∧
       (evaluate t r gt).semantic_error_rate ≤ 1) ∧
    (0 ≤ (evaluate t r gt).execution_success_rate ∧
       (evaluate t r gt).execution_success_rate ≤ 1) ∧
    (0 ≤ (evaluate t r gt).empty_result_rate ∧
       (evaluate t r gt).empty_result_rate ≤ 1) ∧
    (0 ≤ (evaluate t r gt).accuracy_rate ∧
       (evaluate t r gt).accuracy_rate ≤ 1) := by
  refine ⟨?_, ?_, ?_, ?_⟩ <;> simp only [evaluate]
  · exact semantic_error_rate_bounds r
  · exact execution_success_rate_bounds r
  · exact empty_result_rate_bounds r
  · exact accuracy_rate_bounds r gt

/-- C8: when the record's natural-language question contains one of the
rate/percentage keywords and some numeric value of the results exceeds 100,
the result/query cross-check fires for every executed query irrespective of
the query's own text, so every such record with a non-empty query list
evaluates to `semantic_error_rate = 1`. -/
theorem rate_keyword_overflow_flags_every_query (t : Thresholds)
    (r : UniversalAnalysisResult) (gt : Option (List (String × Value)))
    (hkw : (rateQueryWords.any
      (fun w => strContains (pyLower r.analysis_query) w)) = true)
    (hval : (r.calculation_results.any (fun kv => numGtConst 100 kv.2)) = true)
    (hq : r.mongodb_queries ≠ []) :
    (evaluate t r gt).semantic_error_rate = 1 := by
  have hall : ∀ q ∈ r.mongodb_queries, has_semantic_error q r = true := by
    intro q _
    simp [has_semantic_error, check_result_query_mismatch, hkw, hval]
  have hcount : r.mongodb_queries.countP (fun q => has_semantic_error q r) =
      r.mongodb_queries.length := List.countP_eq_length.mpr hall
  have hlen : 0 < r.mongodb_queries.length := List.length_pos.mpr hq
  simp only [evaluate, calculate_semantic_error_rate]
  rw [if_neg (by simp [hq])]
  rw [if_pos hlen, hcount]
  exact div_self (by exact_mod_cast hlen.ne')

theorem rate_keyword_overflow_flags_every_query_witness :
    (evaluate defaultThresholds
      ⟨"rate", ["db.q.find()"], [("x", Value.vnum 200)], []⟩
      none).semantic_error_rate = 1 := by
  apply rate_keyword_overflow_flags_every_query
  · decide
  · decide
  · decide

/-- C10: an execution-log entry with no "error" key satisfies
`log.get("error") is None` and counts as successful no matter what its
status says, so every record with a non-empty log list whose entries all
lack an "error" key evaluates to `execution_success_rate = 1` — even when
every entry's status marks a failure. -/
theorem missing_error_key_counts_as_success (t : Thresholds)
    (r : UniversalAnalysisResult) (gt : Option (List (String × Value)))
    (hlogs : r.execution_logs ≠ [])
    (herr : ∀ e ∈ r.execution_logs, (dGet ("error") e).isNone = true) :
    (evaluate t r gt).execution_success_rate = 1 := by
  have hall : ∀ e ∈ r.execution_logs, log_entry_success e = true := by
    intro e he
    have hnone : dGet ("error") e = none :=
      Option.isNone_iff_eq_none.mp (herr e he)
    simp [log_entry_success, hnone]
  have hcount : r.execution_logs.countP log_entry_success =
      r.execution_logs.length := List.countP_eq_length.mpr hall
  have hlen : 0 < r.execution_logs.length := List.length_pos.mpr hlogs
  simp only [evaluate, calculate_execution_success_rate]
  rw [if_neg (by simp [hlogs])]
  rw [if_pos hlen, hcount]
  exact div_self (by exact_mod_cast hlen.ne')

theorem missing_error_key_counts_as_success_witness :
    (evaluate defaultThresholds
      ⟨"q", [], [], [[("status", Value.vstr ("failed"))]]⟩
      none).execution_success_rate = 1 := by
  apply missing_error_key_counts_as_success
  · exact List.cons_ne_nil _ _
  · decide

/-- The Scenario-A record: the single `$ne` self-comparison query, with an
analysis question and results that trigger no other check. -/
def scenarioARecord : UniversalAnalysisResult :=
  ⟨"users", ["db.users.find(\x7b'user_id': \x7b'$ne': '$user_id'\x7d\x7d)"], [], []⟩

/-- C1 (counterexample): on the Scenario-A record `evaluate` returns
`semantic_error_rate = 0`, not 1 — the self-comparison regex
`(\w+)\s*[!=<>]+\s*\1` demands a literal comparison operator character
between the repeated identifier, and the `$ne`-spelled query contains no
`!`, `=`, `<` or `>` at all, so no check flags it. -/
theorem scenarioA_query_not_flagged :
    (evaluate defaultThresholds scenarioARecord none).semantic_error_rate = 0 ∧
      (evaluate defaultThresholds scenarioARecord none).semantic_error_rate ≠ 1 := by
  have h : has_semantic_error
      ("db.users.find(\x7b'user_id': \x7b'$ne': '$user_id'\x7d\x7d)")
      scenarioARecord = false := by decide
  have h0 : (evaluate defaultThresholds scenarioARecord none).semantic_error_rate
      = 0 := by
    simp only [evaluate, scenarioARecord] at h ⊢
    simp [calculate_semantic_error_rate, List.countP_cons, List.countP_nil, h]
  exact ⟨h0, by rw [h0]; norm_num⟩

/-- C1 (amended): the self-comparison pattern fires only when a literal
comparison operator character (`!`, `=`, `<`, `>`) stands between the two
occurrences of the identifier; the Scenario-A query, which spells the
comparison with MongoDB's `$ne` operator, is not flagged and its record
evaluates to `semantic_error_rate = 0`, while an operator spelling such as
`user_id != user_id` is flagged. -/
theorem self_comparison_needs_operator_character :
    (evaluate defaultThresholds scenarioARecord none).semantic_error_rate = 0 ∧
      has_semantic_error ("user_id != user_id") scenarioARecord = true ∧
      searchAt p1At (String.data ("user_id != user_id")) = true := by
  refine ⟨scenarioA_query_not_flagged.1, by decide, by decide⟩

/-- C5 (counterexample): the query `a > 123456789` contains a greater-than
comparison followed by a numeric literal of nine digits, yet the
implausibly-large-threshold pattern (and every other check) leaves it
unflagged: the regex `>\s*9{8,}` wants eight-plus literal `9` characters,
not arbitrary digits. -/
theorem nine_digit_threshold_not_flagged :
    strContains ("a > 123456789") ("> 123456789") = true ∧
      searchAt p3At (String.data ("a > 123456789")) = false ∧
      has_semantic_error ("a > 123456789")
        ⟨"users", ["a > 123456789"], [], []⟩ = false := by
  refine ⟨by decide, by decide, by decide⟩

/-- C5 (amended): the implausibly-large-threshold pattern `>\s*9{8,}` flags
a query exactly when a greater-than sign is followed, after optional
whitespace, by at least eight consecutive `9` digits; every query
containing such a substring is classified as semantically erroneous, for
every record. -/
theorem gt_eight_nines_flagged (q : String) (pre sp post : List Char) (n : ℕ)
    (hq : q.data = pre ++ '>' :: (sp ++ (List.replicate n '9' ++ post)))
    (hsp : ∀ c ∈ sp, isSpaceChar c = true) (hn : 8 ≤ n)
    (r : UniversalAnalysisResult) :
    searchAt p3At q.data = true ∧ has_semantic_error q r = true := by
  have h9 : isSpaceChar '9' = false := by decide
  have hp3 : p3At ('>' :: (sp ++ (List.replicate n '9' ++ post))) = true := by
    simp only [p3At]
    rw [dropWhile_append_all _ hsp]
    obtain ⟨m, rfl⟩ : ∃ m, n = m + 1 := ⟨n - 1, by omega⟩
    rw [List.replicate_succ, List.cons_append, List.dropWhile_cons, h9]
    simp only [Bool.false_eq_true, if_false]
    rw [← List.cons_append, ← List.replicate_succ]
    exact decide_eq_true
      (le_trans hn (le_length_takeWhile_replicate (m + 1) post))
  have h3 : searchAt p3At q.data = true := by
    rw [hq]; exact searchAt_suffix pre hp3
  exact ⟨h3, by simp [has_semantic_error, h3]⟩

theorem gt_eight_nines_flagged_witness :
    searchAt p3At (String.data ("price > 99999999")) = true ∧
      has_semantic_error ("price > 99999999") ⟨"q", [], [], []⟩ = true := by
  refine gt_eight_nines_flagged ("price > 99999999")
    (String.data ("price ")) ([' ']) ([]) 8 (by decide) (by decide) (by decide) _

/-- C9 (counterexample): the duplicate-grouping regex `\$group.*_id.*_id`
does not fire across a newline, because `.` does not match `\n` — this
query has `$group` followed by two textual occurrences of `_id`, with a
newline in between, and is not classified as semantically erroneous. -/
theorem group_double_id_across_newline_not_flagged :
    String.data ("db.c.aggregate([\x7b'$group':\n \x7b'_id': '$user_id'\x7d\x7d])") =
        String.data ("db.c.aggregate([\x7b'") ++ (String.data ("$group") ++
          (String.data ("':\n \x7b'") ++ (String.data ("_id") ++
            (String.data ("': '$user") ++ (String.data ("_id") ++
              String.data ("'\x7d\x7d])")))))) ∧
      has_semantic_error
        ("db.c.aggregate([\x7b'$group':\n \x7b'_id': '$user_id'\x7d\x7d])")
        ⟨"users",
         ["db.c.aggregate([\x7b'$group':\n \x7b'_id': '$user_id'\x7d\x7d])"],
         [], []⟩ = false := by
  refine ⟨by decide, by decide⟩

/-- C9 (amended): the duplicate-grouping pattern flags any query in which
`$group` is followed, with no intervening newline, by two textual
occurrences of `_id`; since ordinary field names like `user_id` contain
`_id`, a single-key grouping query such as
`db.care_313.aggregate([{'$group': {'_id': '$user_id'}}])` is classified
as semantically erroneous. -/
theorem group_double_id_same_line_flagged (q : String)
    (pre m1 m2 post : List Char)
    (hq : q.data = pre ++ (String.data ("$group") ++ (m1 ++
      (String.data ("_id") ++ (m2 ++ (String.data ("_id") ++ post))))))
    (h1 : ∀ c ∈ m1, (!(c = '\n')) = true)
    (h2 : ∀ c ∈ m2, (!(c = '\n')) = true)
    (r : UniversalAnalysisResult) :
    searchAt p5At q.data = true ∧ has_semantic_error q r = true := by
  have hid : ∀ c ∈ String.data ("_id"), (!(c = '\n')) = true := by decide
  have hp5 : p5At (String.data ("$group") ++ (m1 ++ (String.data ("_id") ++
      (m2 ++ (String.data ("_id") ++ post))))) = true := by
    simp only [p5At]
    rw [Bool.and_eq_true]
    refine ⟨ciPrefixAt_self_append _ _, ?_⟩
    rw [show (6 : ℕ) = (String.data ("$group")).length from rfl, List.drop_left]
    rw [takeWhile_append_all _ h1, takeWhile_append_all _ hid,
      takeWhile_append_all _ h2, takeWhile_append_all _ hid]
    exact seqCI_cons_of _ m1 (seqCI_cons_of _ m2 rfl)
  have h5 : searchAt p5At q.data = true := by
    rw [hq]; exact searchAt_suffix pre hp5
  exact ⟨h5, by simp [has_semantic_error, h5]⟩

theorem group_double_id_same_line_flagged_witness :
    searchAt p5At (String.data
        ("db.care_313.aggregate([\x7b'$group': \x7b'_id': '$user_id'\x7d\x7d])"))
      = true ∧
    has_semantic_error
      ("db.care_313.aggregate([\x7b'$group': \x7b'_id': '$user_id'\x7d\x7d])")
      ⟨"users", [], [], []⟩ = true := by
  refine group_double_id_same_line_flagged _
    (String.data ("db.care_313.aggregate([\x7b'"))
    (String.data ("': \x7b'")) (String.data ("': '$user"))
    (String.data ("'\x7d\x7d])")) (by decide) (by decide) (by decide) _

/-- The Scenario-B record: a single negative numeric result under the field
name `active_users`, no executed queries, no logs. -/
def scenarioBRecord : UniversalAnalysisResult :=
  ⟨"users", [], [("active_users", Value.vnum (-10))], []⟩

/-- C4 (counterexample): with `results = {"active_users": -10}` and no
reference, `evaluate` returns `accuracy_rate = 1`, not 0.8 — the 0.2
negative-number penalty is conditioned on the substring `"count"` occurring
in `str(calculation_results)`, and `{'active_users': -10}` does not
contain it. -/
theorem negative_result_without_count_keeps_full_accuracy :
    strContains (reprResults ([("active_users", Value.vnum (-10))])) ("count")
        = false ∧
      (evaluate defaultThresholds scenarioBRecord none).accuracy_rate = 1 ∧
      (evaluate defaultThresholds scenarioBRecord none).accuracy_rate ≠ 4/5 := by
  have hC : strContains (reprResults ([("active_users", Value.vnum (-10))]))
      ("count") = false := by decide
  have hK : (keyRateWords.any
      (fun w => strContains (pyLower ("active_users")) w)) = false := by decide
  have hbig : numGtConst 10000000 (Value.vnum (-10)) = false := by decide
  have h1 : (evaluate defaultThresholds scenarioBRecord none).accuracy_rate
      = 1 := by
    simp only [evaluate, scenarioBRecord, calculate_accuracy_rate,
      calculate_consistency_score]
    simp [hC, hK, hbig]
    rw [if_neg (by decide), sub_zero]
    exact sup_eq_right.mpr (by norm_num)
  exact ⟨hC, h1, by rw [h1]; norm_num⟩

/-- C4 (amended): the 0.2 penalty of the no-reference consistency path
applies to a negative numeric field only when the textual rendering of the
whole results mapping contains `"count"`; for
`results = {"active_users": -10}` it does not, so `accuracy_rate = 1.0`,
while for the renamed field `{"active_count": -10}` the rendering contains
`"count"`, the 0.2 penalty applies, and `accuracy_rate = 0.8`. -/
theorem negative_count_penalty_needs_count_substring :
    (evaluate defaultThresholds scenarioBRecord none).accuracy_rate = 1 ∧
      (evaluate defaultThresholds
        ⟨"users", [], [("active_count", Value.vnum (-10))], []⟩
        none).accuracy_rate = 4/5 := by
  refine ⟨negative_result_without_count_keeps_full_accuracy.2.1, ?_⟩
  have hC : strContains (reprResults ([("active_count", Value.vnum (-10))]))
      ("count") = true := by decide
  have hK : (keyRateWords.any
      (fun w => strContains (pyLower ("active_count")) w)) = false := by decide
  have hneg : numLtZero (Value.vnum (-10)) = true := by decide
  have hbig : numGtConst 10000000 (Value.vnum (-10)) = false := by decide
  simp only [evaluate, calculate_accuracy_rate, calculate_consistency_score]
  simp [hC, hK, hneg, hbig]
  have hP : ¬ ∃ x ∈ keyRateWords,
      strContains (pyLower ("active_count")) x = true := by decide
  rw [if_neg hP, sub_zero, sup_eq_max]
  norm_num [max_def]

/-- C7 (counterexample): a threshold override missing a required key does
not surface as an `InvalidInputError` — the constructor stores the dict
unvalidated and the verdict computation raises a plain `KeyError` on the
first missing subscript (here `"accuracy"`), an error of a different kind
than the one the claim names. -/
theorem missing_threshold_key_raises_keyerror :
    evaluate_dict
        (some [("semantic_error", 1/10), ("execution_success", 8/10),
               ("empty_result", 2/10)])
        ⟨"q", [], [], []⟩ none
      = Except.error (PyError.keyError ("accuracy")) ∧
    ∀ msg : String,
      (Except.error (PyError.keyError ("accuracy")) :
          Except PyError EvaluationMetrics)
        ≠ Except.error (PyError.invalidInputError msg) := by
  refine ⟨rfl, fun msg h => ?_⟩
  simp at h

/-- C7 (amended): no `InvalidInputError` exists in the code.  A threshold
override missing a required key fails only when the verdict is computed,
with a `KeyError` naming the first missing key in subscript order; and a
falsy override — the empty mapping — is silently replaced by the default
thresholds instead of being rejected. -/
theorem threshold_boundary_error_behaviour :
    evaluate_dict
        (some [("semantic_error", 1/10), ("execution_success", 8/10),
               ("empty_result", 2/10)])
        ⟨"q", [], [], []⟩ none
      = Except.error (PyError.keyError ("accuracy")) ∧
    evaluate_dict (some []) ⟨"q", [], [], []⟩ none
      = evaluate_dict none ⟨"q", [], [], []⟩ none ∧
    init_thresholds (some []) = defaultThresholdsDict := by
  exact ⟨rfl, rfl, rfl⟩

/-- C6: with a reference supplied, the accuracy rate is the number of
matching overlapping entries divided by the number of results entries whose
key is present in the reference, and 1 when no key overlaps; a
numeric-vs-numeric pair matches exactly when the absolute difference is at
most 0.01 (so reference x = 10.0 against computed x = 10.005 counts as
correct and gives accuracy 1), strings match case-insensitively after
trimming, list and dict pairs need full structural equality, and a pair of
distinct non-numeric runtime types never matches. -/
theorem accuracy_with_reference_semantics :
    (∀ (r : UniversalAnalysisResult) (g : List (String × Value)),
        calculate_accuracy_rate r (some g) =
          if r.calculation_results.countP (fun kv => (dGet kv.1 g).isSome) = 0
          then (1 : ℚ)
          else (Nat.cast (r.calculation_results.countP (fun kv =>
              match dGet kv.1 g with
              | some e => values_match kv.2 e
              | none => false)) : ℚ) /
            (Nat.cast (r.calculation_results.countP
              (fun kv => (dGet kv.1 g).isSome)) : ℚ)) ∧
    (∀ a b : ℚ, values_match (Value.vnum a) (Value.vnum b) =
        decide (|a - b| ≤ 1/100)) ∧
    (calculate_accuracy_rate ⟨"q", [], [("x", Value.vnum (2001/200))], []⟩
        (some [("x", Value.vnum 10)]) = 1) ∧
    (∀ s t : String, values_match (Value.vstr s) (Value.vstr t) =
        (pyLower (pyStrip s) == pyLower (pyStrip t))) ∧
    (∀ xs ys : List Value, values_match (Value.vlist xs) (Value.vlist ys) =
        pyEqList xs ys) ∧
    (∀ xs ys : List (String × Value),
        values_match (Value.vdict xs) (Value.vdict ys) =
          pyEq (Value.vdict xs) (Value.vdict ys)) ∧
    (∀ v w : Value, vKind v ≠ vKind w → values_match v w = false) ∧
    (∀ (r : UniversalAnalysisResult) (g : List (String × Value)),
        (∀ kv ∈ r.calculation_results, (dGet kv.1 g).isNone = true) →
        calculate_accuracy_rate r (some g) = 1) := by
  refine ⟨?_, ?_, ?_, ?_, ?_, ?_, ?_, ?_⟩
  · intro r g
    simp only [calculate_accuracy_rate]
    by_cases h : r.calculation_results.countP
        (fun kv => (dGet kv.1 g).isSome) = 0
    · simp [h]
    · simp [h, Nat.pos_of_ne_zero h]
  · intro a b
    simp [values_match, vKind]
  · have hv : values_match (Value.vnum (2001/200)) (Value.vnum 10) = true := by
      simp only [values_match, vKind, ne_eq, not_true_eq_false, if_false,
        decide_eq_true_eq]
      rw [show (2001 : ℚ)/200 - 10 = 1/200 by norm_num,
        abs_of_pos (by norm_num)]
      norm_num
    simp [calculate_accuracy_rate, List.countP_cons, List.countP_nil, dGet, hv]
  · intro s t
    simp [values_match, vKind]
  · intro xs ys
    simp [values_match, vKind]
  · intro xs ys
    simp [values_match, vKind]
  · intro v w h
    simp [values_match, h]
  · intro r g h
    simp only [calculate_accuracy_rate]
    have hz : r.calculation_results.countP
        (fun kv => (dGet kv.1 g).isSome) = 0 := by
      refine List.countP_eq_zero.mpr ?_
      intro kv hkv
      simp [Option.isNone_iff_eq_none.mp (h kv hkv)]
    rw [hz]
    simp

theorem accuracy_with_reference_semantics_witness :
    values_match (Value.vstr ("a")) Value.vnull = false ∧
      calculate_accuracy_rate ⟨"q", [], [("x", Value.vnum 1)], []⟩
        (some [("y", Value.vnum 2)]) = 1 :=
  ⟨accuracy_with_reference_semantics.2.2.2.2.2.2.1 _ _ (by decide),
   accuracy_with_reference_semantics.2.2.2.2.2.2.2 _ _ (by decide)⟩

end MongoEval
